import Mathlib

/-!
Verification development for the QuizWiz trivia application.

The embedding below follows the TypeScript source:
* the session state machine (`quizReducer`) and the high-score ledger
  (`getHighScores` / `saveHighScore`) from the quiz context module;
* the question normalizer (`shuffleArray`, `fetchQuizQuestions`) from the
  API module.

JavaScript numbers are modelled as `Int` (all arithmetic in the source is
integer arithmetic on small values), `null`/`undefined` as `Option`,
thrown exceptions as `Except`, and the platform's `Math.random` stream as
an explicit function argument.
-/

namespace QuizWiz

/-- Embeds `Difficulty` from the types module: `'easy' | 'medium' | 'hard'`. -/
inductive Difficulty where
  | easy
  | medium
  | hard
deriving DecidableEq, Repr

/-- Embeds `QuizQuestion` from the types module. Optional metadata fields are
`Option String`. -/
structure QuizQuestion where
  id : String
  question : String
  options : List String
  answer : String
  category : Option String
  difficulty : Option String
  type : Option String
deriving DecidableEq, Repr

/-- Embeds `ApiQuestion` from the types module: one raw record of the remote
response. -/
structure ApiQuestion where
  question : String
  correct_answer : String
  incorrect_answers : List String
  category : String
  difficulty : String
  type : String
deriving DecidableEq, Repr

/-- Embeds `ApiResponse` from the types module. -/
structure ApiResponse where
  response_code : Int
  results : List ApiQuestion
deriving DecidableEq, Repr

/-- Embeds `QuizState` from the types module. `userAnswers` slots are
`string | null`, hence `Option String`; `error` is `string | null`. -/
structure QuizState where
  questions : List QuizQuestion
  currentQuestionIndex : Int
  userAnswers : List (Option String)
  score : Int
  isCompleted : Bool
  difficulty : Difficulty
  timeLeft : Int
  isLoading : Bool
  error : Option String
deriving DecidableEq, Repr

/-- Embeds `HighScore` from the types module. -/
structure HighScore where
  score : Int
  totalQuestions : Int
  difficulty : Difficulty
  date : String
deriving DecidableEq, Repr

/-- The `QuizAction` discriminated union of the context module. -/
inductive QuizAction where
  | startQuiz (difficulty : Difficulty)
  | setQuestions (questions : List QuizQuestion)
  | selectAnswer (answer : String)
  | nextQuestion
  | previousQuestion
  | finishQuiz
  | resetQuiz
  | setLoading (loading : Bool)
  | setError (error : Option String)
  | decrementTimer
  | resetTimer
deriving DecidableEq, Repr

/-- Embeds `initialState` of the context module. -/
def initialState : QuizState :=
  { questions := []
    currentQuestionIndex := 0
    userAnswers := []
    score := 0
    isCompleted := false
    difficulty := Difficulty.easy
    timeLeft := 30
    isLoading := false
    error := none }

/-- The strict-equality test `answer === state.questions[index]?.answer`
of the FINISH_QUIZ case: the left side is `string | null`, the right side
`string | undefined`, so `===` holds exactly when both are strings and
equal. -/
def answerMatches : Option String → Option QuizQuestion → Bool
  | some a, some q => a == q.answer
  | _, _ => false

/-- The `userAnswers.reduce((acc, answer, index) => ...)` score
computation of the FINISH_QUIZ case. -/
def finishScore (questions : List QuizQuestion) (userAnswers : List (Option String)) : Int :=
  userAnswers.enum.foldl
    (fun acc p => if answerMatches p.2 questions[p.1]? then acc + 1 else acc) 0

/-- Embeds `newAnswers[state.currentQuestionIndex] = action.payload` on a copy of
the answers array. In the application the index is always within the
array's bounds (it is clamped by navigation), so the JavaScript
out-of-bounds hole-extension behaviour is not modelled: `List.set` leaves
the list unchanged for an out-of-range index, and a negative index (which
in JavaScript sets a non-element property) likewise leaves the elements
unchanged. -/
def writeAnswerAt (answers : List (Option String)) (idx : Int) (a : String) :
    List (Option String) :=
  if idx < 0 then answers else answers.set idx.toNat (some a)

/-- Embeds `quizReducer` from the context module, case by case. -/
def quizReducer (state : QuizState) (action : QuizAction) : QuizState :=
  match action with
  | QuizAction.startQuiz d =>
      { initialState with difficulty := d, isLoading := true }
  | QuizAction.setQuestions qs =>
      { state with
          questions := qs
          userAnswers := List.replicate qs.length none
          isLoading := false
          error := none }
  | QuizAction.selectAnswer a =>
      { state with
          userAnswers := writeAnswerAt state.userAnswers state.currentQuestionIndex a }
  | QuizAction.nextQuestion =>
      { state with
          currentQuestionIndex :=
            min (state.currentQuestionIndex + 1) ((state.questions.length : Int) - 1)
          timeLeft := 30 }
  | QuizAction.previousQuestion =>
      { state with
          currentQuestionIndex := max (state.currentQuestionIndex - 1) 0
          timeLeft := 30 }
  | QuizAction.finishQuiz =>
      { state with
          score := finishScore state.questions state.userAnswers
          isCompleted := true }
  | QuizAction.resetQuiz => initialState
  | QuizAction.setLoading b => { state with isLoading := b }
  | QuizAction.setError e => { state with error := e, isLoading := false }
  | QuizAction.decrementTimer => { state with timeLeft := max (state.timeLeft - 1) 0 }
  | QuizAction.resetTimer => { state with timeLeft := 30 }

/-! ### Question normalizer (API module) -/

/-- The destructuring swap
`[shuffled[i], shuffled[j]] = [shuffled[j], shuffled[i]]`.
Both indices are always in range in the source (`j ≤ i < length` because
`Math.random() < 1`); out of range the model leaves the list unchanged. -/
def listSwap {α : Type} (l : List α) (i j : Nat) : List α :=
  match l[i]?, l[j]? with
  | some a, some b => (l.set i b).set j a
  | _, _ => l

/-- The `for (let i = shuffled.length - 1; i > 0; i--)` loop of
`shuffleArray`: at counter `i` the source draws
`j = Math.floor(Math.random() * (i + 1))`; the draw is modelled by
`rand i`, which satisfies `rand i ≤ i` for a genuine `Math.random`. -/
def fisherYatesAux {α : Type} (rand : Nat → Nat) : Nat → List α → List α
  | 0, l => l
  | i + 1, l => fisherYatesAux rand i (listSwap l (i + 1) (rand (i + 1)))

/-- Embeds `shuffleArray` from the API module (Fisher–Yates on a copy). -/
def shuffleArray {α : Type} (rand : Nat → Nat) (l : List α) : List α :=
  fisherYatesAux rand (l.length - 1) l

/-- The per-record body of `data.results.map` in `fetchQuizQuestions`:
decode entities, build `[correct, ...incorrect]`, shuffle, and assemble
the `QuizQuestion`. `decode` stands for the platform
`decodeHtmlEntities` (a textarea round-trip), `rand` for the random
draws used by this record's shuffle. -/
def normalizeQuestion (decode : String → String) (rand : Nat → Nat)
    (index : Nat) (aq : ApiQuestion) : QuizQuestion :=
  let decodedQuestion := decode aq.question
  let decodedCorrectAnswer := decode aq.correct_answer
  let decodedIncorrectAnswers := aq.incorrect_answers.map decode
  let allOptions := decodedCorrectAnswer :: decodedIncorrectAnswers
  let shuffledOptions := shuffleArray rand allOptions
  { id := "question-" ++ toString index
    question := decodedQuestion
    options := shuffledOptions
    answer := decodedCorrectAnswer
    category := some aq.category
    difficulty := some aq.difficulty
    type := some aq.type }

/-- Outcome of the `fetch` call in `fetchQuizQuestions`: either the
promise rejects (transport error, carrying the rethrown message) or an
HTTP response arrives with its `ok` flag and parsed JSON body. -/
inductive FetchOutcome where
  | transportError (msg : String)
  | httpResponse (ok : Bool) (data : ApiResponse)
deriving DecidableEq, Repr

/-- Embeds `fetchQuizQuestions` from the API module. The `try/catch` rethrows
every error, so failures propagate unchanged; `rand i` supplies the
random draws for the shuffle of record `i`. -/
def fetchQuizQuestions (decode : String → String) (rand : Nat → Nat → Nat)
    (outcome : FetchOutcome) : Except String (List QuizQuestion) :=
  match outcome with
  | FetchOutcome.transportError msg => Except.error msg
  | FetchOutcome.httpResponse ok data =>
      if !ok then Except.error "Failed to fetch questions"
      else if data.response_code != 0 then
        Except.error "No questions available for this difficulty"
      else
        Except.ok (data.results.enum.map
          (fun p => normalizeQuestion decode (rand p.1) p.1 p.2))

/-! ### High-score ledger (context module) -/

/-- The comparator `(a, b) => b.score - a.score` of `saveHighScore`
orders entries by descending score; as a relation, `a ≼ b` iff the
comparator does not put `b` strictly before `a`. -/
def scoreDesc (a b : HighScore) : Prop := b.score ≤ a.score

instance : DecidableRel scoreDesc := fun a b => Int.decLe b.score a.score

instance : IsTotal HighScore scoreDesc := ⟨fun a b => Int.le_total b.score a.score⟩

instance : IsTrans HighScore scoreDesc :=
  ⟨fun _ _ _ h h' => le_trans h' h⟩

/-- Embeds `highScores.sort((a, b) => b.score - a.score)`: the engine's stable
sort with that comparator, modelled as a stable insertion sort under
`scoreDesc` (the ECMAScript spec guarantees a stable sort whose result
is ordered by the comparator; which stable sorted result is produced is
all the repository relies on). -/
def sortByScoreDesc (l : List HighScore) : List HighScore :=
  List.insertionSort scoreDesc l

/-- Embeds `saveHighScore` of the context module, acting on the deserialized
ledger. The stored JSON round-trip is elided here (its read half is
modelled separately by `getHighScores`): `ledger` is the list the
enclosed `getHighScores()` call produced, `now` is
`new Date().toISOString()`, and the result is the list passed to
`localStorage.setItem` — or the unchanged ledger when the guard
`state.isCompleted` fails, in which case nothing is written. -/
def saveHighScore (now : String) (state : QuizState) (ledger : List HighScore) :
    List HighScore :=
  if state.isCompleted then
    let newScore : HighScore :=
      { score := state.score
        totalQuestions := (state.questions.length : Int)
        difficulty := state.difficulty
        date := now }
    (sortByScoreDesc (ledger ++ [newScore])).take 5
  else ledger

/-- A sequence of `saveHighScore` writes applied to a stored ledger,
each with its timestamp and the session state at write time. -/
def applyWrites (writes : List (String × QuizState)) (ledger : List HighScore) :
    List HighScore :=
  writes.foldl (fun l w => saveHighScore w.1 w.2 l) ledger

/-! ### JSON parsing model for the ledger read path

`getHighScores` is
`const saved = localStorage.getItem('quiz-high-scores'); return saved ? JSON.parse(saved) : [];`
with no try/catch. To settle its error behaviour the platform's
`JSON.parse` is modelled by a recursive-descent parser over the JSON
grammar: success and failure coincide with `JSON.parse` on the inputs of
interest (the parser is lenient only in corners no theorem touches:
lone-surrogate escapes and raw control characters inside strings). -/

/-- Parsed JSON value. Number literals keep their source text, since the
repository never reads numeric fields back through a code path modelled
here. -/
inductive Json where
  | null
  | bool (b : Bool)
  | num (raw : String)
  | str (s : String)
  | arr (elems : List Json)
  | obj (fields : List (String × Json))

def quoteChar : Char := Char.ofNat 34

def backslashChar : Char := Char.ofNat 92

def lbraceChar : Char := Char.ofNat 123

def rbraceChar : Char := Char.ofNat 125

/-- Skip JSON whitespace. -/
def skipWs : List Char → List Char
  | [] => []
  | c :: cs =>
      if c = ' ' || c = '\t' || c = '\n' || c = '\r' then skipWs cs else c :: cs

def isDigit (c : Char) : Bool := 48 ≤ c.toNat && c.toNat ≤ 57

def hexVal (c : Char) : Option Nat :=
  if 48 ≤ c.toNat && c.toNat ≤ 57 then some (c.toNat - 48)
  else if 97 ≤ c.toNat && c.toNat ≤ 102 then some (c.toNat - 87)
  else if 65 ≤ c.toNat && c.toNat ≤ 70 then some (c.toNat - 55)
  else none

/-- Match an expected literal suffix (e.g. `ull` after `n`). -/
def expectChars : List Char → List Char → Option (List Char)
  | [], cs => some cs
  | _ :: _, [] => none
  | e :: es, c :: cs => if c = e then expectChars es cs else none

/-- Body of a JSON string literal, after its opening quote. -/
def parseStringChars : Nat → List Char → Except String (List Char × List Char)
  | 0, _ => Except.error "string too long"
  | Nat.succ fuel, cs =>
      match cs with
      | [] => Except.error "unterminated string"
      | c :: rest =>
          if c = quoteChar then Except.ok ([], rest)
          else if c = backslashChar then
            match rest with
            | [] => Except.error "unterminated escape"
            | e :: rest2 =>
                if e = quoteChar || e = backslashChar || e = '/' then do
                  let (s, r) ← parseStringChars fuel rest2
                  Except.ok (e :: s, r)
                else if e = 'n' then do
                  let (s, r) ← parseStringChars fuel rest2
                  Except.ok ('\n' :: s, r)
                else if e = 't' then do
                  let (s, r) ← parseStringChars fuel rest2
                  Except.ok ('\t' :: s, r)
                else if e = 'r' then do
                  let (s, r) ← parseStringChars fuel rest2
                  Except.ok ('\r' :: s, r)
                else if e = 'b' then do
                  let (s, r) ← parseStringChars fuel rest2
                  Except.ok (Char.ofNat 8 :: s, r)
                else if e = 'f' then do
                  let (s, r) ← parseStringChars fuel rest2
                  Except.ok (Char.ofNat 12 :: s, r)
                else if e = 'u' then
                  match rest2 with
                  | h1 :: h2 :: h3 :: h4 :: rest3 =>
                      match hexVal h1, hexVal h2, hexVal h3, hexVal h4 with
                      | some a, some b, some c2, some d => do
                          let (s, r) ← parseStringChars fuel rest3
                          Except.ok (Char.ofNat (a * 4096 + b * 256 + c2 * 16 + d) :: s, r)
                      | _, _, _, _ => Except.error "bad unicode escape"
                  | _ => Except.error "bad unicode escape"
                else Except.error "bad escape"
          else do
            let (s, r) ← parseStringChars fuel rest
            Except.ok (c :: s, r)

/-- One or more decimal digits. -/
def chompDigits : List Char → Option (List Char)
  | c :: cs => if isDigit c then some (cs.dropWhile isDigit) else none
  | [] => none

/-- Integer part of a JSON number: `0`, or a nonzero digit run. -/
def chompIntPart : List Char → Option (List Char)
  | c :: cs =>
      if c = '0' then some cs
      else if isDigit c then some (cs.dropWhile isDigit)
      else none
  | [] => none

/-- Optional fraction part. -/
def chompFracPart : List Char → Option (List Char)
  | c :: cs => if c = '.' then chompDigits cs else some (c :: cs)
  | [] => some []

/-- Optional exponent part. -/
def chompExpPart : List Char → Option (List Char)
  | c :: cs =>
      if c = 'e' || c = 'E' then
        match cs with
        | s :: ss => if s = '+' || s = '-' then chompDigits ss else chompDigits (s :: ss)
        | [] => none
      else some (c :: cs)
  | [] => some []

/-- A JSON number token, returned as its literal text. -/
def parseNumber (cs : List Char) : Except String (Json × List Char) :=
  let afterSign :=
    match cs with
    | c :: rest => if c = '-' then rest else cs
    | [] => cs
  match chompIntPart afterSign with
  | none => Except.error "invalid number"
  | some r1 =>
      match chompFracPart r1 with
      | none => Except.error "invalid number"
      | some r2 =>
          match chompExpPart r2 with
          | none => Except.error "invalid number"
          | some r3 =>
              Except.ok (Json.num (String.mk (cs.take (cs.length - r3.length))), r3)

mutual

/-- A JSON value, by first character. -/
def parseValue : Nat → List Char → Except String (Json × List Char)
  | 0, _ => Except.error "input too deep"
  | Nat.succ fuel, cs =>
      match skipWs cs with
      | [] => Except.error "unexpected end of input"
      | c :: rest =>
          if c = 'n' then
            match expectChars ['u', 'l', 'l'] rest with
            | some r => Except.ok (Json.null, r)
            | none => Except.error "unexpected token"
          else if c = 't' then
            match expectChars ['r', 'u', 'e'] rest with
            | some r => Except.ok (Json.bool true, r)
            | none => Except.error "unexpected token"
          else if c = 'f' then
            match expectChars ['a', 'l', 's', 'e'] rest with
            | some r => Except.ok (Json.bool false, r)
            | none => Except.error "unexpected token"
          else if c = quoteChar then do
            let (s, r) ← parseStringChars (rest.length + 1) rest
            Except.ok (Json.str (String.mk s), r)
          else if c = '[' then
            match skipWs rest with
            | [] => Except.error "unterminated array"
            | d :: rest2 =>
                if d = ']' then Except.ok (Json.arr [], rest2)
                else do
                  let (vs, r) ← parseElems fuel (d :: rest2)
                  Except.ok (Json.arr vs, r)
          else if c = lbraceChar then
            match skipWs rest with
            | [] => Except.error "unterminated object"
            | d :: rest2 =>
                if d = rbraceChar then Except.ok (Json.obj [], rest2)
                else do
                  let (kvs, r) ← parseMembers fuel (d :: rest2)
                  Except.ok (Json.obj kvs, r)
          else if isDigit c || c = '-' then parseNumber (c :: rest)
          else Except.error "unexpected token"

/-- Comma-separated array elements, up to the closing bracket. -/
def parseElems : Nat → List Char → Except String (List Json × List Char)
  | 0, _ => Except.error "input too deep"
  | Nat.succ fuel, cs => do
      let (v, rest) ← parseValue fuel cs
      match skipWs rest with
      | [] => Except.error "unterminated array"
      | c :: rest2 =>
          if c = ',' then do
            let (vs, r) ← parseElems fuel rest2
            Except.ok (v :: vs, r)
          else if c = ']' then Except.ok ([v], rest2)
          else Except.error "expected comma or bracket"

/-- Comma-separated object members, up to the closing brace. -/
def parseMembers : Nat → List Char → Except String (List (String × Json) × List Char)
  | 0, _ => Except.error "input too deep"
  | Nat.succ fuel, cs =>
      match skipWs cs with
      | [] => Except.error "unterminated object"
      | c :: rest =>
          if c = quoteChar then do
            let (key, rest2) ← parseStringChars (rest.length + 1) rest
            match skipWs rest2 with
            | [] => Except.error "unterminated object"
            | c2 :: rest3 =>
                if c2 = ':' then do
                  let (v, rest4) ← parseValue fuel rest3
                  match skipWs rest4 with
                  | [] => Except.error "unterminated object"
                  | c3 :: rest5 =>
                      if c3 = ',' then do
                        let (kvs, r) ← parseMembers fuel rest5
                        Except.ok ((String.mk key, v) :: kvs, r)
                      else if c3 = rbraceChar then
                        Except.ok ([(String.mk key, v)], rest5)
                      else Except.error "expected comma or brace"
                else Except.error "expected colon"
          else Except.error "expected string key"

end

/-- Modelled from the platform: `JSON.parse` — parse the whole string as
one JSON value with no trailing characters, raising a syntax error
otherwise. -/
def jsonParse (s : String) : Except String Json :=
  match parseValue (2 * s.length + 16) s.data with
  | Except.ok (v, rest) =>
      if skipWs rest = [] then Except.ok v
      else Except.error "unexpected trailing characters"
  | Except.error e => Except.error e

/-- Embeds `getHighScores` of the context module:
`saved ? JSON.parse(saved) : []`. `stored` is `localStorage.getItem`'s
result (`null` when no payload is persisted); a string is truthy except
when empty; the parse result is returned unvalidated (the TypeScript
cast to `HighScore[]` checks nothing), and a parse failure propagates —
there is no try/catch. -/
def getHighScores (stored : Option String) : Except String Json :=
  match stored with
  | none => Except.ok (Json.arr [])
  | some s => if s = "" then Except.ok (Json.arr []) else jsonParse s

/-- Whether a ledger read succeeded. -/
def readOk {ε α : Type} : Except ε α → Bool
  | Except.ok _ => true
  | Except.error _ => false

/-- A stored ledger is well-formed when it respects the persisted-state
layout: at most 5 entries, sorted descending by score. -/
def WellFormedLedger (l : List HighScore) : Prop :=
  l.length ≤ 5 ∧ List.Sorted scoreDesc l

instance : DecidablePred WellFormedLedger := fun l =>
  inferInstanceAs (Decidable (l.length ≤ 5 ∧ List.Sorted scoreDesc l))

/-! ### Specification-side counting for the score claim -/

/-- The test named by the specification for index `i`:
`userAnswers[i] === questions[i].answer`, i.e. the recorded answer at
`i` is a string equal to the `i`-th question's correct-answer text. -/
def claimPred (qs : List QuizQuestion) (p : Nat × Option String) : Bool :=
  match qs[p.1]?, p.2 with
  | some q, some a => a == q.answer
  | _, _ => false

/-- The number of indices whose recorded answer equals the respective
question's correct-answer text. -/
def claimScore (qs : List QuizQuestion) (ans : List (Option String)) : Nat :=
  ans.enum.countP (claimPred qs)

/-! ### Example data used by witnesses and counterexamples -/

/-- A minimal concrete question. -/
def exampleQuestion (i : Nat) (a : String) : QuizQuestion :=
  { id := "question-" ++ toString i
    question := "q"
    options := [a]
    answer := a
    category := none
    difficulty := none
    type := none }

/-- A concrete mid-session state: three questions, first answered
correctly, second unanswered, third answered wrongly. -/
def exampleState : QuizState :=
  { questions := [exampleQuestion 0 "A", exampleQuestion 1 "B", exampleQuestion 2 "C"]
    currentQuestionIndex := 2
    userAnswers := [some "A", none, some "X"]
    score := 0
    isCompleted := false
    difficulty := Difficulty.easy
    timeLeft := 30
    isLoading := false
    error := none }

/-- A concrete completed single-question session. -/
def completedState : QuizState :=
  { questions := [exampleQuestion 0 "A"]
    currentQuestionIndex := 0
    userAnswers := [some "A"]
    score := 1
    isCompleted := true
    difficulty := Difficulty.easy
    timeLeft := 30
    isLoading := false
    error := none }

/-! ### Reducer lemmas -/

/-- A fold that conditionally increments is a `countP`. -/
theorem foldl_if_countP {α : Type} (p : α → Bool) (l : List α) :
    ∀ acc : Int,
      l.foldl (fun a x => if p x then a + 1 else a) acc = acc + (l.countP p : Int) := by
  induction l with
  | nil => intro acc; simp
  | cons x xs ih =>
      intro acc
      rw [List.foldl_cons, ih, List.countP_cons]
      by_cases h : p x <;> simp [h] <;> push_cast <;> ring

/-- The reducer's fold computes exactly the count the specification
names. -/
theorem finishScore_eq_claimScore (qs : List QuizQuestion) (ans : List (Option String)) :
    finishScore qs ans = (claimScore qs ans : Int) := by
  have hc : List.countP (fun p => answerMatches p.2 qs[p.1]?) ans.enum
      = List.countP (claimPred qs) ans.enum := by
    apply List.countP_congr
    intro x _
    cases h1 : qs[x.1]? <;> cases h2 : x.2 <;>
      simp [answerMatches, claimPred, h1, h2]
  unfold finishScore claimScore
  rw [foldl_if_countP, hc]
  simp

/-- Restricting the count to answered (non-null) slots changes
nothing: a null slot never contributes. -/
theorem claimScore_ignores_null (qs : List QuizQuestion) (ans : List (Option String)) :
    claimScore qs ans =
      ((ans.enum.filter (fun p => p.2.isSome)).countP (claimPred qs)) := by
  unfold claimScore
  rw [List.countP_filter]
  exact List.countP_congr (fun x _ => by
    cases h1 : qs[x.1]? <;> cases h2 : x.2 <;> simp [claimPred, h1, h2])

/-- C1: with one answer slot per question, `FinishQuiz` sets `score` to
the number of indices whose recorded answer equals the respective
question's correct-answer text, sets `isCompleted` to `true`, and null
slots never contribute to that count (the count over answered slots
alone is already the whole count). -/
theorem finishQuiz_score_and_completed (st : QuizState)
    (h : st.userAnswers.length = st.questions.length) :
    (quizReducer st QuizAction.finishQuiz).score =
      (claimScore st.questions st.userAnswers : Int) ∧
    (quizReducer st QuizAction.finishQuiz).isCompleted = true ∧
    claimScore st.questions st.userAnswers =
      ((st.userAnswers.enum.filter (fun p => p.2.isSome)).countP (claimPred st.questions)) :=
  ⟨finishScore_eq_claimScore st.questions st.userAnswers, rfl,
    claimScore_ignores_null st.questions st.userAnswers⟩

/-- Witness for C1 at `exampleState`: the hypothesis holds and the
score counts exactly the one correct slot. -/
theorem finishQuiz_score_and_completed_witness :
    exampleState.userAnswers.length = exampleState.questions.length ∧
    ((quizReducer exampleState QuizAction.finishQuiz).score =
        (claimScore exampleState.questions exampleState.userAnswers : Int) ∧
      (quizReducer exampleState QuizAction.finishQuiz).isCompleted = true ∧
      claimScore exampleState.questions exampleState.userAnswers =
        ((exampleState.userAnswers.enum.filter
            (fun p => p.2.isSome)).countP (claimPred exampleState.questions))) ∧
    claimScore exampleState.questions exampleState.userAnswers = 1 :=
  ⟨by decide, finishQuiz_score_and_completed exampleState (by decide), by decide⟩

/-- C2 counterexample: the reducer does not freeze answers after
completion — on a completed state, `SelectAnswer` still overwrites the
slot at the current index. -/
theorem selectAnswer_mutates_completed :
    completedState.isCompleted = true ∧
    (quizReducer completedState (QuizAction.selectAnswer "B")).userAnswers ≠
      completedState.userAnswers := by decide

/-- C2 (amended): on a completed state, every action other than
`SelectAnswer`, `SetQuestions`, `StartQuiz` and `ResetQuiz` leaves
every answer slot unchanged; the reducer has no completion guard, so
`SelectAnswer` (and `SetQuestions`) can still rewrite the answers of a
completed state. -/
theorem completed_answers_frame (st : QuizState) (a : QuizAction)
    (hc : st.isCompleted = true)
    (ha : a = QuizAction.nextQuestion ∨ a = QuizAction.previousQuestion ∨
      a = QuizAction.finishQuiz ∨ a = QuizAction.decrementTimer ∨
      a = QuizAction.resetTimer ∨ (∃ b, a = QuizAction.setLoading b) ∨
      (∃ e, a = QuizAction.setError e)) :
    (quizReducer st a).userAnswers = st.userAnswers := by
  rcases ha with h | h | h | h | h | ⟨b, h⟩ | ⟨e, h⟩ <;> subst h <;> rfl

/-- Witness for the amended C2 at `completedState` with
`DecrementTimer`. -/
theorem completed_answers_frame_witness :
    completedState.isCompleted = true ∧
    (quizReducer completedState QuizAction.decrementTimer).userAnswers =
      completedState.userAnswers :=
  ⟨by decide,
    completed_answers_frame completedState QuizAction.decrementTimer (by decide)
      (Or.inr (Or.inr (Or.inr (Or.inl rfl))))⟩

/-- C8: `NextQuestion` clamps the position to
`min(position+1, length-1)` and `PreviousQuestion` to
`max(position-1, 0)`, both reset `timeLeft` to 30 and keep the answers;
from an in-progress position `0 < i < length`, previous-then-next
returns to the same position with the answers intact. -/
theorem navigation_clamp_and_roundtrip (st : QuizState) :
    (quizReducer st QuizAction.nextQuestion).currentQuestionIndex =
      min (st.currentQuestionIndex + 1) ((st.questions.length : Int) - 1) ∧
    (quizReducer st QuizAction.nextQuestion).timeLeft = 30 ∧
    (quizReducer st QuizAction.nextQuestion).userAnswers = st.userAnswers ∧
    (quizReducer st QuizAction.previousQuestion).currentQuestionIndex =
      max (st.currentQuestionIndex - 1) 0 ∧
    (quizReducer st QuizAction.previousQuestion).timeLeft = 30 ∧
    (quizReducer st QuizAction.previousQuestion).userAnswers = st.userAnswers ∧
    (0 < st.currentQuestionIndex →
      st.currentQuestionIndex < (st.questions.length : Int) →
      (quizReducer (quizReducer st QuizAction.previousQuestion)
          QuizAction.nextQuestion).currentQuestionIndex = st.currentQuestionIndex ∧
      (quizReducer (quizReducer st QuizAction.previousQuestion)
          QuizAction.nextQuestion).userAnswers = st.userAnswers) := by
  refine ⟨rfl, rfl, rfl, rfl, rfl, rfl, fun h1 h2 => ⟨?_, rfl⟩⟩
  show min (max (st.currentQuestionIndex - 1) 0 + 1) ((st.questions.length : Int) - 1) =
    st.currentQuestionIndex
  omega

/-- Witness for C8 at `exampleState` (position 2 of 3). -/
theorem navigation_clamp_and_roundtrip_witness :
    0 < exampleState.currentQuestionIndex ∧
    exampleState.currentQuestionIndex < (exampleState.questions.length : Int) ∧
    (quizReducer (quizReducer exampleState QuizAction.previousQuestion)
        QuizAction.nextQuestion).currentQuestionIndex =
      exampleState.currentQuestionIndex ∧
    (quizReducer (quizReducer exampleState QuizAction.previousQuestion)
        QuizAction.nextQuestion).userAnswers = exampleState.userAnswers :=
  ⟨by decide, by decide,
    ((navigation_clamp_and_roundtrip exampleState).2.2.2.2.2.2 (by decide) (by decide)).1,
    ((navigation_clamp_and_roundtrip exampleState).2.2.2.2.2.2 (by decide) (by decide)).2⟩

/-- C9: `StartQuiz d` followed by loading a list of 10 questions yields
the in-progress state: 10 null answer slots, position 0, full 30-second
timer, loading flag and error cleared (and score 0, not completed,
difficulty `d`). -/
theorem startQuiz_then_setQuestions (st : QuizState) (d : Difficulty)
    (qs : List QuizQuestion) (h : qs.length = 10) :
    quizReducer (quizReducer st (QuizAction.startQuiz d)) (QuizAction.setQuestions qs) =
      { questions := qs
        currentQuestionIndex := 0
        userAnswers := List.replicate 10 none
        score := 0
        isCompleted := false
        difficulty := d
        timeLeft := 30
        isLoading := false
        error := none } := by
  simp [quizReducer, initialState, h]

/-- Witness for C9 with a concrete list of 10 questions. -/
theorem startQuiz_then_setQuestions_witness :
    (List.replicate 10 (exampleQuestion 0 "A")).length = 10 ∧
    quizReducer (quizReducer initialState (QuizAction.startQuiz Difficulty.medium))
        (QuizAction.setQuestions (List.replicate 10 (exampleQuestion 0 "A"))) =
      { questions := List.replicate 10 (exampleQuestion 0 "A")
        currentQuestionIndex := 0
        userAnswers := List.replicate 10 none
        score := 0
        isCompleted := false
        difficulty := Difficulty.medium
        timeLeft := 30
        isLoading := false
        error := none } :=
  ⟨by decide,
    startQuiz_then_setQuestions initialState Difficulty.medium
      (List.replicate 10 (exampleQuestion 0 "A")) (by decide)⟩

/-- C10: `FinishQuiz` modifies only `score` and `isCompleted`; every
other field of the state — including the recorded answers needed for
the result review — is unchanged. -/
theorem finishQuiz_frame (st : QuizState) :
    (quizReducer st QuizAction.finishQuiz).questions = st.questions ∧
    (quizReducer st QuizAction.finishQuiz).userAnswers = st.userAnswers ∧
    (quizReducer st QuizAction.finishQuiz).currentQuestionIndex =
      st.currentQuestionIndex ∧
    (quizReducer st QuizAction.finishQuiz).difficulty = st.difficulty ∧
    (quizReducer st QuizAction.finishQuiz).timeLeft = st.timeLeft ∧
    (quizReducer st QuizAction.finishQuiz).isLoading = st.isLoading ∧
    (quizReducer st QuizAction.finishQuiz).error = st.error :=
  ⟨rfl, rfl, rfl, rfl, rfl, rfl, rfl⟩

/-! ### Ledger theorems -/

/-- One `saveHighScore` write preserves the persisted-state layout:
after a completed write the stored list is the sorted-descending top 5;
a non-completed write leaves a well-formed ledger well-formed. -/
theorem saveHighScore_wellFormed (now : String) (st : QuizState)
    (l : List HighScore) (h : WellFormedLedger l) :
    WellFormedLedger (saveHighScore now st l) := by
  unfold saveHighScore
  by_cases hc : st.isCompleted = true
  · simp only [hc, if_true]
    constructor
    · rw [List.length_take]
      exact inf_le_left
    · exact List.Pairwise.sublist (List.take_sublist 5 _)
        (List.sorted_insertionSort scoreDesc _)
  · simpa [hc] using h

/-- Well-formedness is preserved by any sequence of writes. -/
theorem applyWrites_wellFormed (writes : List (String × QuizState)) :
    ∀ l, WellFormedLedger l → WellFormedLedger (applyWrites writes l) := by
  induction writes with
  | nil => intro l h; exact h
  | cons w ws ih => intro l h; exact ih _ (saveHighScore_wellFormed w.1 w.2 l h)

/-- C4: after any sequence of `saveHighScore` writes starting from a
well-formed stored list, the persisted ledger holds at most 5 entries
and is sorted descending by score; a write for a session that is not
completed leaves the stored ledger unchanged. -/
theorem ledger_writes_invariant (writes : List (String × QuizState))
    (init : List HighScore) (h : WellFormedLedger init) :
    WellFormedLedger (applyWrites writes init) ∧
    ∀ now st l, st.isCompleted = false → saveHighScore now st l = l := by
  refine ⟨applyWrites_wellFormed writes init h, fun now st l hc => ?_⟩
  unfold saveHighScore
  simp [hc]

/-- Witness for C4: two concrete writes (one completed, one not)
starting from the empty ledger. -/
theorem ledger_writes_invariant_witness :
    WellFormedLedger ([] : List HighScore) ∧
    (WellFormedLedger
        (applyWrites [("2024-01-01", completedState), ("2024-01-02", exampleState)] []) ∧
      ∀ now st l, st.isCompleted = false → saveHighScore now st l = l) :=
  ⟨by decide,
    ledger_writes_invariant
      [("2024-01-01", completedState), ("2024-01-02", exampleState)] [] (by decide)⟩

/-- C3 counterexample: a persisted payload that is not valid JSON makes
the ledger read raise a parse error (there is no try/catch around
`JSON.parse`), instead of yielding the empty list; a missing payload
does read back as the empty list. -/
theorem getHighScores_corrupt_raises :
    readOk (getHighScores (some "corrupt")) = false ∧
    readOk (getHighScores none) = true := by decide

/-- C3 (amended): the ledger read returns the empty list when no
payload is persisted (or the stored string is empty, which is falsy);
for any other persisted payload it returns the platform parse of the
payload unguarded, so an unreadable/corrupt payload raises the parse
error rather than yielding the empty list. -/
theorem getHighScores_unguarded_parse (s : String) (h : s ≠ "") :
    getHighScores none = Except.ok (Json.arr []) ∧
    getHighScores (some "") = Except.ok (Json.arr []) ∧
    getHighScores (some s) = jsonParse s ∧
    (∀ e, jsonParse s = Except.error e → getHighScores (some s) = Except.error e) := by
  refine ⟨rfl, rfl, ?_, ?_⟩
  · unfold getHighScores
    simp [h]
  · intro e he
    unfold getHighScores
    simp [h, he]

/-- Witness for the amended C3 at the corrupt payload. -/
theorem getHighScores_unguarded_parse_witness :
    ("corrupt" : String) ≠ "" ∧
    (getHighScores none = Except.ok (Json.arr []) ∧
      getHighScores (some "") = Except.ok (Json.arr []) ∧
      getHighScores (some "corrupt") = jsonParse "corrupt" ∧
      (∀ e, jsonParse "corrupt" = Except.error e →
        getHighScores (some "corrupt") = Except.error e)) :=
  ⟨by decide, getHighScores_unguarded_parse "corrupt" (by decide)⟩

/-! ### Shuffle permutation lemmas -/

/-- Writing `x` over position `m` and carrying the displaced element `b`
to the front is a permutation. -/
theorem cons_set_perm {α : Type} (x : α) :
    ∀ (xs : List α) (m : Nat) (b : α), xs[m]? = some b →
      List.Perm (b :: xs.set m x) (x :: xs) := by
  intro xs
  induction xs with
  | nil => intro m b h; simp at h
  | cons y ys ih =>
      intro m b h
      cases m with
      | zero =>
          simp at h
          subst h
          simpa using List.Perm.swap x y ys
      | succ n =>
          simp at h
          rw [List.set_cons_succ]
          have h1 : List.Perm (b :: y :: ys.set n x) (y :: b :: ys.set n x) :=
            List.Perm.swap y b (ys.set n x)
          have h2 : List.Perm (y :: b :: ys.set n x) (y :: x :: ys) :=
            List.Perm.cons y (ih n b h)
          have h3 : List.Perm (y :: x :: ys) (x :: y :: ys) := List.Perm.swap x y ys
          exact (h1.trans h2).trans h3

/-- Exchanging the elements at two in-range positions is a
permutation. -/
theorem set_set_perm {α : Type} :
    ∀ (l : List α) (i j : Nat) (a b : α), l[i]? = some a → l[j]? = some b →
      List.Perm ((l.set i b).set j a) l := by
  intro l
  induction l with
  | nil => intro i j a b hi hj; simp at hi
  | cons x xs ih =>
      intro i j a b hi hj
      cases i with
      | zero =>
          cases j with
          | zero =>
              simp at hi hj
              subst hi
              subst hj
              simp
          | succ m =>
              simp at hi hj
              subst hi
              rw [List.set_cons_zero, List.set_cons_succ]
              exact cons_set_perm x xs m b hj
      | succ n =>
          cases j with
          | zero =>
              simp at hi hj
              subst hj
              rw [List.set_cons_succ, List.set_cons_zero]
              exact cons_set_perm x xs n a hi
          | succ m =>
              simp at hi hj
              rw [List.set_cons_succ, List.set_cons_succ]
              exact List.Perm.cons x (ih n m a b hi hj)

/-- The destructuring swap is a permutation (unchanged when an index is
out of range, which the source never hits). -/
theorem listSwap_perm {α : Type} (l : List α) (i j : Nat) :
    List.Perm (listSwap l i j) l := by
  unfold listSwap
  cases hi : l[i]? with
  | none => exact List.Perm.refl l
  | some a =>
      cases hj : l[j]? with
      | none => exact List.Perm.refl l
      | some b => exact set_set_perm l i j a b hi hj

/-- Every pass of the Fisher–Yates loop permutes the list. -/
theorem fisherYatesAux_perm {α : Type} (rand : Nat → Nat) :
    ∀ (n : Nat) (l : List α), List.Perm (fisherYatesAux rand n l) l := by
  intro n
  induction n with
  | zero => intro l; exact List.Perm.refl l
  | succ i ih =>
      intro l
      exact (ih (listSwap l (i + 1) (rand (i + 1)))).trans
        (listSwap_perm l (i + 1) (rand (i + 1)))

/-- Lemma: `shuffleArray` returns a permutation of its input. -/
theorem shuffleArray_perm {α : Type} (rand : Nat → Nat) (l : List α) :
    List.Perm (shuffleArray rand l) l :=
  fisherYatesAux_perm rand (l.length - 1) l

/-- A concrete raw record for witnesses. -/
def exampleApiQuestion : ApiQuestion :=
  { question := "Q"
    correct_answer := "A"
    incorrect_answers := ["B", "C", "D"]
    category := "General"
    difficulty := "easy"
    type := "multiple" }

/-- C5: the normalizer's produced options list is a permutation of the
decoded correct answer together with all decoded incorrect answers, and
the stored correct-answer text is present verbatim in the shuffled
options. The hypothesis records `Math.random`'s contract
(`j = floor(random * (i+1)) ≤ i`). -/
theorem normalize_options_perm (decode : String → String) (rand : Nat → Nat)
    (index : Nat) (aq : ApiQuestion) (hrand : ∀ k, rand k ≤ k) :
    List.Perm (normalizeQuestion decode rand index aq).options
      (decode aq.correct_answer :: aq.incorrect_answers.map decode) ∧
    (normalizeQuestion decode rand index aq).answer ∈
      (normalizeQuestion decode rand index aq).options := by
  have hperm : List.Perm (normalizeQuestion decode rand index aq).options
      (decode aq.correct_answer :: aq.incorrect_answers.map decode) :=
    shuffleArray_perm rand _
  exact ⟨hperm, hperm.mem_iff.mpr (List.mem_cons_self _ _)⟩

/-- Witness for C5 at a concrete record with the identity decoder and a
zero random stream. -/
theorem normalize_options_perm_witness :
    List.Perm (normalizeQuestion id (fun _ => 0) 0 exampleApiQuestion).options
      (id exampleApiQuestion.correct_answer ::
        exampleApiQuestion.incorrect_answers.map id) ∧
    (normalizeQuestion id (fun _ => 0) 0 exampleApiQuestion).answer ∈
      (normalizeQuestion id (fun _ => 0) 0 exampleApiQuestion).options :=
  normalize_options_perm id (fun _ => 0) 0 exampleApiQuestion (fun k => Nat.zero_le k)

/-! ### Fetch theorems -/

/-- A concrete success response carrying ten records. -/
def exampleApiResponse : ApiResponse :=
  { response_code := 0
    results := List.replicate 10 exampleApiQuestion }

/-- C7: the fetch fails exactly when the transport call fails, the HTTP
response is non-success, or the response's status code differs from 0;
otherwise it returns one normalized question per result record (same
length, record `i` normalized at index `i`) — never a partial list. -/
theorem fetch_fails_iff (decode : String → String) (rand : Nat → Nat → Nat)
    (outcome : FetchOutcome) :
    (readOk (fetchQuizQuestions decode rand outcome) = true ↔
      ∃ data, outcome = FetchOutcome.httpResponse true data ∧
        data.response_code = 0) ∧
    (∀ data, outcome = FetchOutcome.httpResponse true data →
      data.response_code = 0 →
      ∃ qs, fetchQuizQuestions decode rand outcome = Except.ok qs ∧
        qs.length = data.results.length ∧
        ∀ i : Nat, qs[i]? =
          (data.results[i]?).map (fun aq => normalizeQuestion decode (rand i) i aq)) := by
  constructor
  · constructor
    · intro h
      match outcome with
      | FetchOutcome.transportError msg =>
          simp [fetchQuizQuestions, readOk] at h
      | FetchOutcome.httpResponse ok data =>
          by_cases hok : ok = true
          · by_cases hrc : data.response_code = 0
            · exact ⟨data, by rw [hok], hrc⟩
            · simp [fetchQuizQuestions, hok, hrc, readOk] at h
          · simp [fetchQuizQuestions, hok, readOk] at h
    · rintro ⟨data, rfl, hrc⟩
      simp [fetchQuizQuestions, hrc, readOk]
  · rintro data rfl hrc
    refine ⟨data.results.enum.map
      (fun p => normalizeQuestion decode (rand p.1) p.1 p.2), ?_, ?_, ?_⟩
    · simp [fetchQuizQuestions, hrc]
    · rw [List.length_map, List.enum_length]
    · intro i
      rw [List.getElem?_map, List.getElem?_enum]
      cases data.results[i]? with
      | none => rfl
      | some aq => rfl

/-- Witness for C7 at a concrete successful outcome. -/
theorem fetch_fails_iff_witness :
    exampleApiResponse.response_code = 0 ∧
    (∃ qs, fetchQuizQuestions id (fun _ _ => 0)
          (FetchOutcome.httpResponse true exampleApiResponse) = Except.ok qs ∧
        qs.length = exampleApiResponse.results.length ∧
        ∀ i : Nat, qs[i]? =
          (exampleApiResponse.results[i]?).map
            (fun aq => normalizeQuestion id (fun _ => 0) i aq)) :=
  ⟨rfl,
    (fetch_fails_iff id (fun _ _ => 0)
        (FetchOutcome.httpResponse true exampleApiResponse)).2
      exampleApiResponse rfl rfl⟩

/-- C6: a successful load (success response, status code 0, the
contracted batch of 10 records) produces exactly 10 questions, each
with a non-empty options list containing its correct answer — exactly
once when the option texts are distinct. The last hypothesis is
`Math.random`'s contract. -/
theorem successful_load_ten (decode : String → String) (rand : Nat → Nat → Nat)
    (data : ApiResponse) (hrc : data.response_code = 0)
    (hlen : data.results.length = 10) (hrand : ∀ i k, rand i k ≤ k) :
    ∃ qs, fetchQuizQuestions decode rand (FetchOutcome.httpResponse true data) =
        Except.ok qs ∧
      qs.length = 10 ∧
      ∀ q ∈ qs, q.options ≠ [] ∧ q.answer ∈ q.options ∧
        (q.options.Nodup → q.options.count q.answer = 1) := by
  refine ⟨data.results.enum.map
    (fun p => normalizeQuestion decode (rand p.1) p.1 p.2), ?_, ?_, ?_⟩
  · simp [fetchQuizQuestions, hrc]
  · rw [List.length_map, List.enum_length, hlen]
  · intro q hq
    rw [List.mem_map] at hq
    obtain ⟨p, hp, rfl⟩ := hq
    have hperm : List.Perm (normalizeQuestion decode (rand p.1) p.1 p.2).options
        (decode p.2.correct_answer :: p.2.incorrect_answers.map decode) :=
      shuffleArray_perm (rand p.1) _
    have hmem : (normalizeQuestion decode (rand p.1) p.1 p.2).answer ∈
        (normalizeQuestion decode (rand p.1) p.1 p.2).options :=
      hperm.mem_iff.mpr (List.mem_cons_self _ _)
    refine ⟨?_, hmem, fun hnodup => List.count_eq_one_of_mem hnodup hmem⟩
    intro hnil
    have hlen2 := hperm.length_eq
    rw [hnil] at hlen2
    simp at hlen2

/-- Witness for C6 at the concrete ten-record response. -/
theorem successful_load_ten_witness :
    exampleApiResponse.response_code = 0 ∧
    exampleApiResponse.results.length = 10 ∧
    (∃ qs, fetchQuizQuestions id (fun _ _ => 0)
          (FetchOutcome.httpResponse true exampleApiResponse) = Except.ok qs ∧
        qs.length = 10 ∧
        ∀ q ∈ qs, q.options ≠ [] ∧ q.answer ∈ q.options ∧
          (q.options.Nodup → q.options.count q.answer = 1)) :=
  ⟨rfl, by decide,
    successful_load_ten id (fun _ _ => 0) exampleApiResponse rfl (by decide)
      (fun i k => Nat.zero_le k)⟩

end QuizWiz
